import Mathlib

/-!
Shallow embedding of the Authelia UserAdmin service (`useradmin/app.mjs`).

The service keeps two JSON/YAML-backed stores — the Credential Store
(`users.yml`, a mapping username -> user record) and the Invite Store
(`useradmin-invites.json`, a mapping token -> invitation) — and exposes
Express handlers over them.  JavaScript objects are modelled as association
lists keyed by `String`; each handler becomes a pure function from the
loaded store state (plus the request body and the outcomes of external
calls: the clock, the hashing subprocess, mail delivery) to an outcome and
the store state that `saveUsers` / `saveInvites` persists.
-/

namespace AutheliaUserAdmin

/-! ## Association-list operations mirroring JS object access -/

/-- Models `obj[k]` — first binding wins, as JS objects have unique keys. -/
def assocFind {α : Type} : List (String × α) → String → Option α
  | [], _ => none
  | kv :: tl, k => if kv.1 = k then some kv.2 else assocFind tl k

/-- Models `delete obj[k]` — removes the binding for `k`. -/
def assocErase {α : Type} : List (String × α) → String → List (String × α)
  | [], _ => []
  | kv :: tl, k => if kv.1 = k then assocErase tl k else kv :: assocErase tl k

/-- Models `obj[k] = v` — replaces the value in place when the key exists,
appends in insertion order otherwise. -/
def assocPut {α : Type} : List (String × α) → String → α → List (String × α)
  | [], k, v => [(k, v)]
  | kv :: tl, k, v => if kv.1 = k then (k, v) :: tl else kv :: assocPut tl k v

/-- In-place mutation `obj[k].field = …`, applied to the binding at `k`. -/
def assocMapAt {α : Type} : List (String × α) → String → (α → α) → List (String × α)
  | [], _, _ => []
  | kv :: tl, k, f => (if kv.1 = k then (kv.1, f kv.2) else kv) :: assocMapAt tl k f

theorem assocFind_erase {α : Type} (l : List (String × α)) (k : String) :
    assocFind (assocErase l k) k = none := by
  induction l with
  | nil => rfl
  | cons hd tl ih =>
    by_cases h : hd.1 = k
    · simpa [assocErase, h] using ih
    · simpa [assocErase, assocFind, h] using ih

theorem assocFind_erase_other {α : Type} (l : List (String × α)) (k k' : String)
    (h : k' ≠ k) : assocFind (assocErase l k) k' = assocFind l k' := by
  induction l with
  | nil => rfl
  | cons hd tl ih =>
    by_cases hk : hd.1 = k
    · simpa [assocErase, assocFind, hk, Ne.symm h] using ih
    · by_cases hk' : hd.1 = k'
      · simp [assocErase, assocFind, hk, hk', h]
      · simpa [assocErase, assocFind, hk, hk'] using ih

theorem assocFind_put_self {α : Type} (l : List (String × α)) (k : String) (v : α) :
    assocFind (assocPut l k v) k = some v := by
  induction l with
  | nil => simp [assocPut, assocFind]
  | cons hd tl ih =>
    by_cases hk : hd.1 = k
    · simp [assocPut, assocFind, hk]
    · simpa [assocPut, assocFind, hk] using ih

theorem assocFind_put_other {α : Type} (l : List (String × α)) (k k' : String) (v : α)
    (h : k' ≠ k) : assocFind (assocPut l k v) k' = assocFind l k' := by
  induction l with
  | nil => simp [assocPut, assocFind, Ne.symm h]
  | cons hd tl ih =>
    by_cases hk : hd.1 = k
    · simp [assocPut, assocFind, hk, Ne.symm h]
    · by_cases hk' : hd.1 = k'
      · simp [assocPut, assocFind, hk, hk', h]
      · simpa [assocPut, assocFind, hk, hk'] using ih

theorem assocFind_mapAt_self {α : Type} (l : List (String × α)) (k : String) (f : α → α) :
    assocFind (assocMapAt l k f) k = (assocFind l k).map f := by
  induction l with
  | nil => rfl
  | cons hd tl ih =>
    by_cases hk : hd.1 = k
    · simp [assocMapAt, assocFind, hk]
    · simpa [assocMapAt, assocFind, hk] using ih

theorem assocFind_mapAt_other {α : Type} (l : List (String × α)) (k k' : String)
    (f : α → α) (h : k' ≠ k) :
    assocFind (assocMapAt l k f) k' = assocFind l k' := by
  induction l with
  | nil => rfl
  | cons hd tl ih =>
    by_cases hk : hd.1 = k
    · simpa [assocMapAt, assocFind, hk, Ne.symm h] using ih
    · by_cases hk' : hd.1 = k'
      · simp [assocMapAt, assocFind, hk, hk', h]
      · simpa [assocMapAt, assocFind, hk, hk'] using ih

/-! ## Credential Store Adapter: `loadUsers` over parsed YAML

`loadUsers` reads `users.yml`, parses it with `yaml.load`, and runs
`const parsed = yaml.load(txt) || {}; return parsed.users || {};`.
The external parse is modelled by its outcome: the file is absent, the
read/parse throws, or the parse yields a YAML value. -/

/-- YAML values as `js-yaml` returns them to JS. -/
inductive Yaml where
  | nullv : Yaml
  | boolv (b : Bool) : Yaml
  | num (n : Int) : Yaml
  | str (s : String) : Yaml
  | arr (xs : List Yaml) : Yaml
  | obj (fields : List (String × Yaml)) : Yaml
deriving Repr

/-- JS truthiness of a parsed YAML value (`[]` and `\x7b\x7d` are truthy). -/
def Yaml.truthy : Yaml → Bool
  | .nullv => false
  | .boolv b => b
  | .num n => n != 0
  | .str s => s ≠ ""
  | .arr _ => true
  | .obj _ => true

/-- JS property access `v.users`: a field lookup on objects, `undefined`
(here `none`) on every non-object value. -/
def Yaml.getField : Yaml → String → Option Yaml
  | .obj fields, k => assocFind fields k
  | _, _ => none

/-- The document shape `loadUsers` expects: an object whose `users` field is
itself an object (the username → record mapping). -/
def Yaml.isUsersDoc (v : Yaml) : Bool :=
  match v.getField "users" with
  | some (.obj _) => true
  | _ => false

/-- State of the users file as seen by `loadUsers`: absent, or present with
the given read/parse outcome (`error` models `readFileSync`/`yaml.load`
throwing). -/
inductive FileState where
  | absent : FileState
  | unreadableOrMalformed : FileState
  | parsed (v : Yaml) : FileState
deriving Repr

/-- Models `loadUsers()` — when the file is absent it first writes the skeleton
`users: \x7b\x7d` and reads that back; a throwing read/parse propagates to the
route handler (surfaced as a 500); otherwise
`(yaml.load(txt) || \x7b\x7d).users || \x7b\x7d` is returned. -/
def loadUsers : FileState → Except Unit Yaml
  | .absent => Except.ok (Yaml.obj [])
  | .unreadableOrMalformed => Except.error ()
  | .parsed v =>
    let parsed := if v.truthy then v else Yaml.obj []
    Except.ok (match parsed.getField "users" with
      | some u => if u.truthy then u else Yaml.obj []
      | none => Yaml.obj [])

/-! ## User records and request-body fields -/

/-- A user record as stored in `users.yml`.  `email` and `password` are
optional because JS object fields may be absent (`create` stores `email`
from the body even when the body omitted it, and a hand-edited store may
lack `password`). -/
structure UserRec where
  displayname : String
  email : Option String
  password : Option String
  groups : List String
deriving Repr, DecidableEq

/-- A pending invitation as stored in `useradmin-invites.json`. -/
structure Invite where
  email : String
  groups : List String
  displayname : String
  createdAt : Nat
  expiresAt : Nat
deriving Repr, DecidableEq

abbrev Users := List (String × UserRec)
abbrev Invites := List (String × Invite)

/-- The `groups` field of a JSON request body: absent (`undefined`), a
string, or an array of strings. -/
inductive GroupsField where
  | undef : GroupsField
  | str (s : String) : GroupsField
  | arr (gs : List String) : GroupsField
deriving Repr, DecidableEq

/-- Models `Array.isArray(groups) ? groups : (groups ? [groups] : ["users"])` —
the normalisation used by `POST /api/users` and `POST /api/invite`
(an empty string is falsy, hence defaults). -/
def normGroupsCreate : GroupsField → List String
  | .undef => ["users"]
  | .str s => if s = "" then ["users"] else [s]
  | .arr gs => gs

/-- Models `Array.isArray(groups) ? groups : [groups]` — the normalisation used by
`PUT /api/users/:username` once `groups !== undefined`. -/
def normGroupsUpdate : GroupsField → List String
  | .undef => []
  | .str s => [s]
  | .arr gs => gs

/-! ## Access Guard -/

/-- The fixed candidate header list of `getGroupsFromHeaders`, in source
order. -/
def candidateHeaders : List String :=
  ["x-forwarded-groups", "remote-groups", "x-authentik-groups",
   "x-authelia-groups", "x-forwarded-user", "x-remote-groups"]

/-- The candidates other than `x-forwarded-user`: the group-carrying
headers. -/
def groupHeaders : List String :=
  ["x-forwarded-groups", "remote-groups", "x-authentik-groups",
   "x-authelia-groups", "x-remote-groups"]

/-- A request's headers: name → value, `none` when the header is absent. -/
abbrev Headers := String → Option String

/-- Models `req.header(h)` followed by the `if (val)` truthiness test: an absent
header and an empty-valued header both fail it. -/
def headerTruthy (req : Headers) (h : String) : Option String :=
  match req h with
  | some v => if v = "" then none else some v
  | none => none

/-- Models `getGroupsFromHeaders(req)`: the first candidate whose value passes the
truthiness test, else `null`. -/
def getGroupsFromHeaders (req : Headers) : Option String :=
  candidateHeaders.findSome? (headerTruthy req)

/-- A separator character of the regex `[,\s]`. -/
def isSepChar (c : Char) : Bool := c = ',' || c.isWhitespace

/-- Models `g.trim()` on the character list of a fragment. -/
def trimChars (cs : List Char) : List Char :=
  ((cs.dropWhile Char.isWhitespace).reverse.dropWhile Char.isWhitespace).reverse

/-- Models `groupsRaw.split(/[,\s]+/).map(g => g.trim()).filter(Boolean)` — split
on commas and whitespace, trim, drop empties.  Splitting per separator
character instead of per run yields extra empty fragments, which the
`filter(Boolean)` step removes just as it removes the empty leading
fragment JS produces for a leading separator run. -/
def splitGroups (s : String) : List String :=
  ((s.data.splitOnP isSepChar).map (fun cs => String.mk (trimChars cs))).filter
    (fun t => t ≠ "")

/-- Outcome of the `checkAdmin` middleware. -/
inductive AdminCheck where
  | authorized : AdminCheck
  | deniedNoGroups : AdminCheck
  | deniedNotAdmin : AdminCheck
deriving Repr, DecidableEq

/-- Models `checkAdmin(req, res, next)` — 403 `forbidden (no groups)` when no
candidate header yields a value, 403 `forbidden (not admin)` when the split
group list lacks `admins`, else pass through. -/
def checkAdmin (req : Headers) : AdminCheck :=
  match getGroupsFromHeaders req with
  | none => AdminCheck.deniedNoGroups
  | some raw =>
    if (splitGroups raw).contains "admins" then AdminCheck.authorized
    else AdminCheck.deniedNotAdmin

/-! ## Route handlers

Each handler is a pure function of the loaded store state.  The external
hashing capability (`generateHash`, an `authelia crypto hash generate`
subprocess that may throw) is a parameter `hash : String → Except Unit
String`; the clock reads `Date.now()` are explicit `Nat` parameters.  The
second component of each result is the state passed to `saveUsers` /
`saveInvites` — on an error outcome the stores are returned unchanged
because the handler returns before any `save*` call. -/

/-- Outcome of `POST /api/users`. -/
inductive CreateOutcome where
  | missingUsername : CreateOutcome
  | missingPassword : CreateOutcome
  | userExists : CreateOutcome
  | hashFailed : CreateOutcome
  | created : CreateOutcome
deriving Repr, DecidableEq

/-- HTTP status the handler answers with for each `CreateOutcome`. -/
def CreateOutcome.status : CreateOutcome → Nat
  | .missingUsername => 400
  | .missingPassword => 400
  | .userExists => 400
  | .hashFailed => 500
  | .created => 200

/-- Models `POST /api/users` — validate, check for an existing username, hash the
password, insert the record, save.  A missing body field arrives as
`undefined`, which the `!username` / `!password` tests treat exactly like
`""`, so both are modelled as the empty string. -/
def createUser (hash : String → Except Unit String) (users : Users)
    (username password : String) (email : Option String)
    (groups : GroupsField) (displayname : String) : CreateOutcome × Users :=
  if username = "" then (CreateOutcome.missingUsername, users)
  else if password = "" then (CreateOutcome.missingPassword, users)
  else if (assocFind users username).isSome then (CreateOutcome.userExists, users)
  else
    match hash password with
    | Except.error _ => (CreateOutcome.hashFailed, users)
    | Except.ok h =>
      (CreateOutcome.created,
       assocPut users username
         { displayname := if displayname = "" then username else displayname
           email := email
           password := some h
           groups := normGroupsCreate groups })

/-- Outcome of `PUT /api/users/:username`. -/
inductive UpdateOutcome where
  | notFound : UpdateOutcome
  | updated : UpdateOutcome
deriving Repr, DecidableEq

/-- HTTP status for each `UpdateOutcome`. -/
def UpdateOutcome.status : UpdateOutcome → Nat
  | .notFound => 404
  | .updated => 200

/-- Models `PUT /api/users/:username` — 404 when the user is absent; otherwise
each body field that is not `undefined` overwrites the stored field
(`email !== undefined`, `displayname !== undefined`, `groups !== undefined`),
then the store is saved. -/
def updateUser (users : Users) (username : String)
    (email : Option String) (displayname : Option String)
    (groups : GroupsField) : UpdateOutcome × Users :=
  match assocFind users username with
  | none => (UpdateOutcome.notFound, users)
  | some _ =>
    (UpdateOutcome.updated,
     assocMapAt users username (fun r =>
       { r with
         email := match email with
           | some e => some e
           | none => r.email
         displayname := match displayname with
           | some d => d
           | none => r.displayname
         groups := match groups with
           | GroupsField.undef => r.groups
           | g => normGroupsUpdate g }))

/-- The per-record copy of `GET /api/users`:
`safe[k] = \x7b...v\x7d; if (safe[k].password) delete safe[k].password` —
the password field is deleted only when present and truthy (non-empty). -/
def stripPassword (r : UserRec) : UserRec :=
  { r with password := match r.password with
    | some p => if p = "" then some p else none
    | none => none }

/-- Models `GET /api/users` — every stored record, passed through
`stripPassword`. -/
def listUsers (users : Users) : Users :=
  users.map (fun kv => (kv.1, stripPassword kv.2))

/-- Outcome of the detached `transporter.sendMail` promise (or SMTP not
being configured).  The handler does not await it. -/
inductive MailOutcome where
  | notConfigured : MailOutcome
  | sent : MailOutcome
  | failed : MailOutcome
deriving Repr, DecidableEq

/-- Outcome of `POST /api/invite`. -/
inductive InviteOutcome where
  | missingEmail : InviteOutcome
  | ok (token link : String) : InviteOutcome
deriving Repr, DecidableEq

/-- Models `POST /api/invite` — store a fresh invitation and answer
`ok/token/link`.  `token` is the external `uuidv4()` draw, `base` the
`BASE_URL` environment value, `now1` and `now2` the two successive
`Date.now()` reads in the object literal (`createdAt` first, `expiresAt`
second), `expiresMinutes` `none` when the body omits it (destructuring
default 60).  `mail` is the outcome of the fire-and-forget send; the
handler only logs it, so the result does not depend on it. -/
def inviteCreate (invites : Invites) (now1 now2 : Nat) (token base : String)
    (email : String) (groups : GroupsField) (displayname : String)
    (expiresMinutes : Option Nat) (mail : MailOutcome) :
    InviteOutcome × Invites :=
  if email = "" then (InviteOutcome.missingEmail, invites)
  else
    let em := expiresMinutes.getD 60
    let link := base ++ "/admin/invite/accept.html?token=" ++ token
    (InviteOutcome.ok token link,
     assocPut invites token
       { email := email
         groups := normGroupsCreate groups
         displayname := displayname
         createdAt := now1
         expiresAt := now2 + em * 60 * 1000 })

/-- Outcome of `POST /api/invite/accept`. -/
inductive AcceptOutcome where
  | missingFields : AcceptOutcome
  | invalidToken : AcceptOutcome
  | expired : AcceptOutcome
  | usernameExists : AcceptOutcome
  | hashFailed : AcceptOutcome
  | ok : AcceptOutcome
deriving Repr, DecidableEq

/-- HTTP status for each `AcceptOutcome`. -/
def AcceptOutcome.status : AcceptOutcome → Nat
  | .missingFields => 400
  | .invalidToken => 400
  | .expired => 400
  | .usernameExists => 400
  | .hashFailed => 500
  | .ok => 200

/-- Models `POST /api/invite/accept` — the public acceptance path.  Returns the
outcome together with the invite store and user store as persisted: on
`expired` the invite is deleted and saved; on `ok` the user is inserted and
saved, then the invite deleted and saved; every other outcome leaves both
stores untouched (in particular a hash failure happens before any save). -/
def acceptInvite (hash : String → Except Unit String)
    (invites : Invites) (users : Users) (now : Nat)
    (token username password : String) : AcceptOutcome × Invites × Users :=
  if token = "" ∨ username = "" ∨ password = "" then
    (AcceptOutcome.missingFields, invites, users)
  else
    match assocFind invites token with
    | none => (AcceptOutcome.invalidToken, invites, users)
    | some invite =>
      if invite.expiresAt < now then
        (AcceptOutcome.expired, assocErase invites token, users)
      else if (assocFind users username).isSome then
        (AcceptOutcome.usernameExists, invites, users)
      else
        match hash password with
        | Except.error _ => (AcceptOutcome.hashFailed, invites, users)
        | Except.ok h =>
          (AcceptOutcome.ok,
           assocErase invites token,
           assocPut users username
             { displayname := if invite.displayname = "" then username
                else invite.displayname
               email := some invite.email
               password := some h
               groups := invite.groups })

/-- A concrete stand-in for the external hashing capability, used only to
instantiate theorems at concrete inputs: it succeeds and returns a
PHC-style digest string. -/
def extHash (p : String) : Except Unit String :=
  Except.ok ("$argon2id$v=19$" ++ p)

theorem assocFind_mapVals {α β : Type} (f : α → β) (l : List (String × α)) (k : String) :
    assocFind (l.map (fun kv => (kv.1, f kv.2))) k = (assocFind l k).map f := by
  induction l with
  | nil => rfl
  | cons hd tl ih =>
    by_cases hk : hd.1 = k
    · simp [assocFind, hk]
    · simpa [assocFind, hk] using ih

/-! ## Claim theorems -/

/-- C1 counterexample: a users file whose content is valid YAML but not the
expected structured document — here the scalar `42` — does not make
`loadUsers` fail; it silently returns the empty mapping even though the
file is present, contradicting the claim that a store not parseable as the
expected structured document always surfaces as a `StorageError`. -/
theorem c1_counterexample_scalar_file :
    Yaml.isUsersDoc (Yaml.num 42) = false ∧
    loadUsers (FileState.parsed (Yaml.num 42)) = Except.ok (Yaml.obj []) :=
  ⟨rfl, rfl⟩

/-- C1 (amended): the Credential Store `load()` fails (propagating to the
caller as a 500) exactly when reading or YAML-parsing the file throws; a
file whose content parses as YAML but is not the expected
users-mapping document does not fail — the handler silently receives an
empty (or even non-object) `users` value — and an absent file yields the
empty mapping after writing the skeleton. -/
theorem c1_load_users_error_iff_unreadable (fs : FileState) :
    (loadUsers fs = Except.error () ↔ fs = FileState.unreadableOrMalformed) ∧
    loadUsers FileState.absent = Except.ok (Yaml.obj []) := by
  refine ⟨?_, rfl⟩
  cases fs <;> simp [loadUsers]

/-- C1 witness: instantiates the amended theorem at the throwing file
state. -/
theorem c1_witness_unreadable :
    loadUsers FileState.unreadableOrMalformed = Except.error () :=
  (c1_load_users_error_iff_unreadable FileState.unreadableOrMalformed).1.mpr rfl

/-- C3: the Access Guard takes the first candidate header carrying a
(non-empty) value, splits it on commas/whitespace, and authorizes iff the
resulting group list contains `admins`; a request carrying none of the
candidate headers is denied with `no groups`; a resolved value lacking
`admins` is denied with `not admin`; and headers outside the candidate
list never influence the decision. -/
theorem c3_check_admin_spec (req : Headers) :
    ((∀ h ∈ candidateHeaders, req h = none) →
      checkAdmin req = AdminCheck.deniedNoGroups) ∧
    (getGroupsFromHeaders req = none → checkAdmin req = AdminCheck.deniedNoGroups) ∧
    (∀ v, getGroupsFromHeaders req = some v →
      (checkAdmin req = AdminCheck.authorized ↔ "admins" ∈ splitGroups v) ∧
      (checkAdmin req = AdminCheck.deniedNotAdmin ↔ "admins" ∉ splitGroups v)) ∧
    (∀ req2 : Headers, (∀ h ∈ candidateHeaders, req2 h = req h) →
      checkAdmin req2 = checkAdmin req) := by
  refine ⟨?_, ?_, ?_, ?_⟩
  · intro hall
    have h1 := hall "x-forwarded-groups" (by simp [candidateHeaders])
    have h2 := hall "remote-groups" (by simp [candidateHeaders])
    have h3 := hall "x-authentik-groups" (by simp [candidateHeaders])
    have h4 := hall "x-authelia-groups" (by simp [candidateHeaders])
    have h5 := hall "x-forwarded-user" (by simp [candidateHeaders])
    have h6 := hall "x-remote-groups" (by simp [candidateHeaders])
    simp [checkAdmin, getGroupsFromHeaders, candidateHeaders, List.findSome?,
      headerTruthy, h1, h2, h3, h4, h5, h6]
  · intro h
    simp [checkAdmin, h]
  · intro v hv
    constructor
    · by_cases hc : "admins" ∈ splitGroups v <;> simp [checkAdmin, hv, hc]
    · by_cases hc : "admins" ∈ splitGroups v <;> simp [checkAdmin, hv, hc]
  · intro req2 hagree
    have e1 := hagree "x-forwarded-groups" (by simp [candidateHeaders])
    have e2 := hagree "remote-groups" (by simp [candidateHeaders])
    have e3 := hagree "x-authentik-groups" (by simp [candidateHeaders])
    have e4 := hagree "x-authelia-groups" (by simp [candidateHeaders])
    have e5 := hagree "x-forwarded-user" (by simp [candidateHeaders])
    have e6 := hagree "x-remote-groups" (by simp [candidateHeaders])
    simp [checkAdmin, getGroupsFromHeaders, candidateHeaders, List.findSome?,
      headerTruthy, e1, e2, e3, e4, e5, e6]

/-- C3 witness: a request bearing none of the candidate headers is denied
with the no-groups error. -/
theorem c3_witness_no_headers :
    checkAdmin (fun _ => none) = AdminCheck.deniedNoGroups :=
  (c3_check_admin_spec (fun _ => none)).1 (fun _ _ => rfl)

/-- C10: `x-forwarded-user` is one of the Access Guard's candidate headers,
so a request carrying none of the group headers but carrying a non-empty
`x-forwarded-user` has that header's value split and treated as the group
set — authorized exactly when it yields `admins`. -/
theorem c10_forwarded_user_as_groups (req : Headers) (v : String)
    (hgroups : ∀ h ∈ groupHeaders, req h = none)
    (huser : req "x-forwarded-user" = some v) (hv : v ≠ "") :
    "x-forwarded-user" ∈ candidateHeaders ∧
    getGroupsFromHeaders req = some v ∧
    (checkAdmin req = AdminCheck.authorized ↔ "admins" ∈ splitGroups v) := by
  have h1 := hgroups "x-forwarded-groups" (by simp [groupHeaders])
  have h2 := hgroups "remote-groups" (by simp [groupHeaders])
  have h3 := hgroups "x-authentik-groups" (by simp [groupHeaders])
  have h4 := hgroups "x-authelia-groups" (by simp [groupHeaders])
  have hsome : getGroupsFromHeaders req = some v := by
    simp [getGroupsFromHeaders, candidateHeaders, List.findSome?, headerTruthy,
      h1, h2, h3, h4, huser, hv]
  refine ⟨by simp [candidateHeaders], hsome, ?_⟩
  by_cases hc : "admins" ∈ splitGroups v <;> simp [checkAdmin, hsome, hc]

/-- C10 witness: a request whose only trusted header is `x-forwarded-user`
with value `admins` is authorized as an administrator. -/
theorem c10_witness_forwarded_user_admin :
    checkAdmin (fun h => if h = "x-forwarded-user" then some "admins" else none) =
      AdminCheck.authorized :=
  (c10_forwarded_user_as_groups
    (fun h => if h = "x-forwarded-user" then some "admins" else none) "admins"
    (by decide) (by decide) (by decide)).2.2.mpr (by decide)

/-- C5: `create` answers the validation error (400) when username or
password is missing, the conflict error (400) when the username is already
present; otherwise it inserts a record whose password is the hash of the
given password, whose groups default to `["users"]` when none are given
and whose displayname defaults to the username, and returns success with
the enlarged store as the state passed to `saveUsers`. -/
theorem c5_create_user_spec (hash : String → Except Unit String) (users : Users)
    (username password : String) (email : Option String)
    (groups : GroupsField) (displayname : String) :
    (username = "" →
      createUser hash users username password email groups displayname =
        (CreateOutcome.missingUsername, users) ∧
      CreateOutcome.missingUsername.status = 400) ∧
    (username ≠ "" → password = "" →
      createUser hash users username password email groups displayname =
        (CreateOutcome.missingPassword, users) ∧
      CreateOutcome.missingPassword.status = 400) ∧
    (username ≠ "" → password ≠ "" → (assocFind users username).isSome →
      createUser hash users username password email groups displayname =
        (CreateOutcome.userExists, users) ∧
      CreateOutcome.userExists.status = 400) ∧
    (∀ h, username ≠ "" → password ≠ "" → assocFind users username = none →
      hash password = Except.ok h →
      createUser hash users username password email groups displayname =
        (CreateOutcome.created,
         assocPut users username
           { displayname := if displayname = "" then username else displayname
             email := email
             password := some h
             groups := normGroupsCreate groups }) ∧
      assocFind (createUser hash users username password email groups displayname).2
          username =
        some { displayname := if displayname = "" then username else displayname
               email := email
               password := some h
               groups := normGroupsCreate groups } ∧
      normGroupsCreate GroupsField.undef = ["users"]) := by
  refine ⟨?_, ?_, ?_, ?_⟩
  · intro h0
    exact ⟨by simp [createUser, h0], rfl⟩
  · intro h0 h1
    exact ⟨by simp [createUser, h0, h1], rfl⟩
  · intro h0 h1 h2
    exact ⟨by simp [createUser, h0, h1, h2], rfl⟩
  · intro h h0 h1 h2 h3
    have heq : createUser hash users username password email groups displayname =
        (CreateOutcome.created,
         assocPut users username
           { displayname := if displayname = "" then username else displayname
             email := email
             password := some h
             groups := normGroupsCreate groups }) := by
      simp [createUser, h0, h1, h2, h3]
    refine ⟨heq, ?_, rfl⟩
    rw [heq]
    exact assocFind_put_self users username _

/-- C5 witness: creating `alice` in the empty store with no groups and no
displayname yields her record with hashed password, default groups and
displayname `alice`. -/
theorem c5_witness_create_alice :
    createUser extHash [] "alice" "pw" (some "a@x") GroupsField.undef "" =
      (CreateOutcome.created,
       [("alice", { displayname := "alice", email := some "a@x",
                    password := some "$argon2id$v=19$pw", groups := ["users"] })]) := by
  have := ((c5_create_user_spec extHash [] "alice" "pw" (some "a@x")
      GroupsField.undef "").2.2.2 "$argon2id$v=19$pw"
    (by decide) (by decide) rfl rfl).1
  simpa [assocPut, normGroupsCreate] using this

/-- C4 counterexample: `create` with an explicitly empty groups array
succeeds and writes a record whose groups list is empty, because
`Array.isArray([])` is true and the array is stored verbatim — so not
every record written to the Credential Store has a non-empty groups
list. -/
theorem c4_counterexample_empty_array :
    (createUser extHash [] "alice" "pw" none (GroupsField.arr []) "").1 =
      CreateOutcome.created ∧
    (assocFind (createUser extHash [] "alice" "pw" none (GroupsField.arr []) "").2
        "alice").map UserRec.groups = some [] := by
  constructor <;> decide

/-- C4 (amended): a stored record's groups list is non-empty whenever the
client does not supply an explicit array — an omitted groups field becomes
`["users"]` and a non-empty scalar a singleton — but a supplied array is
stored verbatim by `create` and `update` (so an empty array yields empty
groups), and invite acceptance copies the invitation's groups verbatim. -/
theorem c4_amended_groups_normalisation (hash : String → Except Unit String)
    (users usersU : Users) (invites : Invites) (inv : Invite) (r : UserRec)
    (now : Nat) (token username password h : String) (email : Option String)
    (emailU displaynameU : Option String)
    (groups : GroupsField) (displayname : String)
    (hu : username ≠ "") (hp : password ≠ "") (ht : token ≠ "")
    (hfresh : assocFind users username = none)
    (hh : hash password = Except.ok h)
    (hinv : assocFind invites token = some inv)
    (hlive : ¬ inv.expiresAt < now)
    (hfound : assocFind usersU username = some r) :
    (∀ gs, normGroupsCreate (GroupsField.arr gs) = gs ∧
      normGroupsUpdate (GroupsField.arr gs) = gs) ∧
    normGroupsCreate GroupsField.undef = ["users"] ∧
    (∀ s, s ≠ "" → normGroupsCreate (GroupsField.str s) = [s] ∧
      normGroupsUpdate (GroupsField.str s) = [s]) ∧
    ((assocFind (createUser hash users username password email groups
        displayname).2 username).map UserRec.groups =
      some (normGroupsCreate groups)) ∧
    (∀ gs, (assocFind (updateUser usersU username emailU displaynameU
        (GroupsField.arr gs)).2 username).map UserRec.groups = some gs) ∧
    ((assocFind (acceptInvite hash invites users now token username
        password).2.2 username).map UserRec.groups = some inv.groups) := by
  refine ⟨fun gs => ⟨rfl, rfl⟩, rfl, fun s hs => ⟨by simp [normGroupsCreate, hs], rfl⟩,
    ?_, ?_, ?_⟩
  · have := ((c5_create_user_spec hash users username password email groups
        displayname).2.2.2 h hu hp hfresh hh).2.1
    simp [this]
  · intro gs
    have : updateUser usersU username emailU displaynameU (GroupsField.arr gs) =
        (UpdateOutcome.updated,
         assocMapAt usersU username (fun r0 =>
           { r0 with
             email := match emailU with
               | some e => some e
               | none => r0.email
             displayname := match displaynameU with
               | some d => d
               | none => r0.displayname
             groups := gs })) := by
      simp [updateUser, hfound, normGroupsUpdate]
    rw [this]
    simp [assocFind_mapAt_self, hfound]
  · have hnotmissing : ¬(token = "" ∨ username = "" ∨ password = "") := by
      simp [ht, hu, hp]
    simp only [acceptInvite, if_neg hnotmissing, hinv, if_neg hlive, hfresh,
      Option.isSome_none, Bool.false_eq_true, if_false, hh]
    rw [assocFind_put_self]
    rfl

/-- C4 witness: instantiates the amended normalisation theorem on concrete
stores — creating `carol` with scalar groups `staff` and updating `dave`
with an explicit array both store the stated groups. -/
theorem c4_witness_groups :
    (assocFind (createUser extHash [] "carol" "pw" none (GroupsField.str "staff")
        "").2 "carol").map UserRec.groups = some ["staff"] := by
  have := (c4_amended_groups_normalisation extHash []
      [("carol", { displayname := "c", email := none, password := none,
                   groups := ["users"] })]
      [("t", { email := "e@x", groups := ["g"], displayname := "", createdAt := 0,
               expiresAt := 10 })]
      { email := "e@x", groups := ["g"], displayname := "", createdAt := 0,
        expiresAt := 10 }
      { displayname := "c", email := none, password := none, groups := ["users"] }
      5 "t" "carol" "pw" "$argon2id$v=19$pw" none none none
      (GroupsField.str "staff") ""
      (by decide) (by decide) (by decide) rfl rfl rfl (by decide) rfl).2.2.2.1
  simpa [normGroupsCreate] using this

/-- C7 counterexample: a Credential Store state containing a record whose
password field is the empty string is returned by `list()` with the
password field still present, because the handler deletes the field only
when it is truthy — so it is not the case that for every store state the
password field is absent from every returned record. -/
theorem c7_counterexample_empty_password :
    (assocFind (listUsers [("u", { displayname := "d", email := some "e@x",
                                   password := some "",
                                   groups := ["users"] })]) "u").map
        UserRec.password = some (some "") := by
  decide

/-- C7 (amended): `list()` returns every stored record with displayname,
email and groups unchanged and with the password field removed whenever the
stored password is present and non-empty (a present-but-empty password is
returned as is); in particular, for a username not in the store, `create`
followed by `list()` yields that user with no password field whenever the
hash is non-empty. -/
theorem c7_list_users_spec (users : Users) (k : String) :
    assocFind (listUsers users) k = (assocFind users k).map stripPassword ∧
    (∀ r, assocFind users k = some r →
      (stripPassword r).displayname = r.displayname ∧
      (stripPassword r).email = r.email ∧
      (stripPassword r).groups = r.groups ∧
      (∀ p, r.password = some p → p ≠ "" → (stripPassword r).password = none) ∧
      (r.password = none → (stripPassword r).password = none)) ∧
    (∀ (hash : String → Except Unit String) (h username password : String)
       (email : Option String) (groups : GroupsField) (displayname : String),
      username ≠ "" → password ≠ "" → hash password = Except.ok h → h ≠ "" →
      assocFind users username = none →
      (assocFind (listUsers (createUser hash users username password email groups
          displayname).2) username).map UserRec.password = some none) := by
  refine ⟨assocFind_mapVals stripPassword users k, ?_, ?_⟩
  · intro r _
    refine ⟨rfl, rfl, rfl, ?_, ?_⟩
    · intro p hp hne
      simp [stripPassword, hp, hne]
    · intro hp
      simp [stripPassword, hp]
  · intro hash h username password email groups displayname hu hp hh hne hfresh
    have hrec := ((c5_create_user_spec hash users username password email groups
        displayname).2.2.2 h hu hp hfresh hh).2.1
    simp only [listUsers]
    rw [assocFind_mapVals stripPassword _ username, hrec]
    simp [stripPassword, hne]

/-- C7 witness: creating `alice` in the empty store and listing yields her
record with the password field absent. -/
theorem c7_witness_create_then_list :
    (assocFind (listUsers (createUser extHash [] "alice" "pw" none
        GroupsField.undef "").2) "alice").map UserRec.password = some none :=
  (c7_list_users_spec [] "alice").2.2 extHash "$argon2id$v=19$pw" "alice" "pw"
    none GroupsField.undef "" (by decide) (by decide) rfl (by decide) rfl

/-- C8: `update` answers 404 when the username is absent and leaves the
store untouched; otherwise it overwrites exactly the fields provided in
the body (a field left `undefined` keeps the stored value), never touches
the password hash, leaves every other user's record unchanged, and the
resulting store is what `saveUsers` persists. -/
theorem c8_update_user_spec (users : Users) (username : String)
    (email displayname : Option String) (groups : GroupsField) :
    (assocFind users username = none →
      updateUser users username email displayname groups =
        (UpdateOutcome.notFound, users) ∧
      UpdateOutcome.notFound.status = 404) ∧
    (∀ r, assocFind users username = some r →
      (updateUser users username email displayname groups).1 =
        UpdateOutcome.updated ∧
      assocFind (updateUser users username email displayname groups).2 username =
        some { displayname := displayname.getD r.displayname
               email := match email with
                 | some e => some e
                 | none => r.email
               password := r.password
               groups := match groups with
                 | GroupsField.undef => r.groups
                 | GroupsField.str s => [s]
                 | GroupsField.arr gs => gs } ∧
      (∀ k, k ≠ username →
        assocFind (updateUser users username email displayname groups).2 k =
          assocFind users k)) := by
  constructor
  · intro h
    exact ⟨by simp [updateUser, h], rfl⟩
  · intro r hr
    have heq : (updateUser users username email displayname groups).2 =
        assocMapAt users username (fun r0 =>
          { r0 with
            email := match email with
              | some e => some e
              | none => r0.email
            displayname := match displayname with
              | some d => d
              | none => r0.displayname
            groups := match groups with
              | GroupsField.undef => r0.groups
              | g => normGroupsUpdate g }) := by
      simp [updateUser, hr]
    refine ⟨by simp [updateUser, hr], ?_, ?_⟩
    · rw [heq, assocFind_mapAt_self, hr]
      cases email <;> cases displayname <;> cases groups <;>
        simp [normGroupsUpdate, Option.getD, Option.filter]
    · intro k hk
      rw [heq]
      exact assocFind_mapAt_other users username k _ hk

/-- C8 witness: updating `dave` with a new email and an explicit groups
array while omitting displayname changes exactly those two fields and
keeps the password hash. -/
theorem c8_witness_update_dave :
    assocFind (updateUser
        [("dave", { displayname := "Dave", email := some "old@x",
                    password := some "$h$1", groups := ["users"] })]
        "dave" (some "new@x") none (GroupsField.arr ["a", "b"])).2 "dave" =
      some { displayname := "Dave", email := some "new@x",
             password := some "$h$1", groups := ["a", "b"] } := by
  have := ((c8_update_user_spec
      [("dave", { displayname := "Dave", email := some "old@x",
                  password := some "$h$1", groups := ["users"] })]
      "dave" (some "new@x") none (GroupsField.arr ["a", "b"])).2
      { displayname := "Dave", email := some "old@x",
        password := some "$h$1", groups := ["users"] } (by decide)).2.1
  simpa [Option.filter] using this

/-- C2: an invitation token is never replayable — whenever `accept`
succeeds or answers `Expired`, the token is gone from the persisted Invite
Store, and any later `accept` naming a token absent from the store answers
`InvalidToken` without touching either store; moreover a known token with
`expiresAt < now` answers `Expired` and is removed. -/
theorem c2_accept_exactly_once (hash : String → Except Unit String)
    (invites : Invites) (users : Users) (now : Nat)
    (token username password : String)
    (ht : token ≠ "") (hu : username ≠ "") (hp : password ≠ "") :
    (((acceptInvite hash invites users now token username password).1 =
        AcceptOutcome.ok ∨
      (acceptInvite hash invites users now token username password).1 =
        AcceptOutcome.expired) →
      assocFind (acceptInvite hash invites users now token username password).2.1
        token = none) ∧
    (∀ (hash2 : String → Except Unit String) (invites2 : Invites)
        (users2 : Users) (now2 : Nat) (u2 p2 : String),
      u2 ≠ "" → p2 ≠ "" → assocFind invites2 token = none →
      acceptInvite hash2 invites2 users2 now2 token u2 p2 =
        (AcceptOutcome.invalidToken, invites2, users2)) ∧
    (∀ inv, assocFind invites token = some inv → inv.expiresAt < now →
      acceptInvite hash invites users now token username password =
        (AcceptOutcome.expired, assocErase invites token, users)) := by
  have hmiss : ¬(token = "" ∨ username = "" ∨ password = "") := by
    simp [ht, hu, hp]
  refine ⟨?_, ?_, ?_⟩
  · intro hout
    simp only [acceptInvite, if_neg hmiss] at hout ⊢
    cases hfind : assocFind invites token with
    | none => simp [hfind] at hout
    | some inv =>
      simp only [hfind] at hout ⊢
      by_cases hexp : inv.expiresAt < now
      · simp [hexp, assocFind_erase]
      · simp only [if_neg hexp] at hout ⊢
        by_cases hex : (assocFind users username).isSome
        · simp [hex] at hout
        · simp only [hex, Bool.false_eq_true, if_false] at hout ⊢
          cases hhash : hash password with
          | error e => simp [hhash] at hout
          | ok hh => simp [hhash, assocFind_erase]
  · intro hash2 invites2 users2 now2 u2 p2 hu2 hp2 hnone
    have hmiss2 : ¬(token = "" ∨ u2 = "" ∨ p2 = "") := by simp [ht, hu2, hp2]
    simp [acceptInvite, hmiss2, hnone]
  · intro inv hfind hexp
    simp [acceptInvite, hmiss, hfind, hexp]

/-- C2 witness: accepting a token whose `expiresAt` is in the past answers
`Expired` and deletes it, after which the very same call on the saved
store answers `InvalidToken`. -/
theorem c2_witness_expired_then_invalid :
    acceptInvite extHash
        [("t", { email := "e@x", groups := ["users"], displayname := "",
                 createdAt := 0, expiresAt := 0 })] [] 5 "t" "bob" "pw" =
      (AcceptOutcome.expired, [], []) ∧
    acceptInvite extHash [] [] 6 "t" "bob" "pw" =
      (AcceptOutcome.invalidToken, [], []) := by
  constructor
  · have := (c2_accept_exactly_once extHash
        [("t", { email := "e@x", groups := ["users"], displayname := "",
                 createdAt := 0, expiresAt := 0 })] [] 5 "t" "bob" "pw"
        (by decide) (by decide) (by decide)).2.2
        { email := "e@x", groups := ["users"], displayname := "",
          createdAt := 0, expiresAt := 0 } (by decide) (by decide)
    simpa [assocErase] using this
  · exact (c2_accept_exactly_once extHash
        [("t", { email := "e@x", groups := ["users"], displayname := "",
                 createdAt := 0, expiresAt := 0 })] [] 5 "t" "bob" "pw"
        (by decide) (by decide) (by decide)).2.1 extHash [] [] 6 "bob" "pw"
        (by decide) (by decide) rfl

/-- C6 counterexample: an invitation stored with the empty displayname —
exactly what invite creation stores when no displayname is supplied —
is accepted into a user record whose displayname is the chosen username,
not the invitation's stored (empty) displayname, because the handler
computes `invite.displayname || username`. -/
theorem c6_counterexample_displayname_fallback :
    (acceptInvite extHash
        [("t", { email := "e@x", groups := ["users"], displayname := "",
                 createdAt := 0, expiresAt := 10 })] [] 5 "t" "bob" "pw").1 =
      AcceptOutcome.ok ∧
    (assocFind (acceptInvite extHash
        [("t", { email := "e@x", groups := ["users"], displayname := "",
                 createdAt := 0, expiresAt := 10 })] [] 5 "t" "bob" "pw").2.2
        "bob").map UserRec.displayname = some "bob" := by
  constructor <;> decide

/-- C6 (amended): `accept` with a known unexpired token answers `Conflict`
when the username already exists; otherwise it creates a record whose
email and groups are exactly the invitation's stored values, whose
displayname is the invitation's stored displayname when that is non-empty
and otherwise the chosen username, with the hashed password, persists it,
and deletes the consumed invitation. -/
theorem c6_accept_creates_from_invite (hash : String → Except Unit String)
    (invites : Invites) (users : Users) (now : Nat)
    (token username password h : String) (inv : Invite)
    (ht : token ≠ "") (hu : username ≠ "") (hp : password ≠ "")
    (hfind : assocFind invites token = some inv)
    (hlive : ¬ inv.expiresAt < now)
    (hh : hash password = Except.ok h) :
    ((assocFind users username).isSome →
      acceptInvite hash invites users now token username password =
        (AcceptOutcome.usernameExists, invites, users)) ∧
    (assocFind users username = none →
      (acceptInvite hash invites users now token username password).1 =
        AcceptOutcome.ok ∧
      assocFind
          (acceptInvite hash invites users now token username password).2.2
          username =
        some { displayname := if inv.displayname = "" then username
                 else inv.displayname
               email := some inv.email
               password := some h
               groups := inv.groups } ∧
      assocFind
          (acceptInvite hash invites users now token username password).2.1
          token = none) := by
  have hmiss : ¬(token = "" ∨ username = "" ∨ password = "") := by
    simp [ht, hu, hp]
  constructor
  · intro hex
    simp [acceptInvite, hmiss, hfind, hlive, hex]
  · intro hfresh
    have hex : ¬ (assocFind users username).isSome = true := by simp [hfresh]
    refine ⟨?_, ?_, ?_⟩
    · simp [acceptInvite, hmiss, hfind, hlive, hex, hh]
    · simp only [acceptInvite, if_neg hmiss, hfind, if_neg hlive, hex,
        Bool.false_eq_true, if_false, hh]
      exact assocFind_put_self users username _
    · simp only [acceptInvite, if_neg hmiss, hfind, if_neg hlive, hex,
        Bool.false_eq_true, if_false, hh]
      exact assocFind_erase invites token

/-- C6 witness: accepting a live invitation for a fresh username `bob`
creates his record from the invitation's email, groups and (non-empty)
displayname, and removes the invitation. -/
theorem c6_witness_accept_bob :
    assocFind (acceptInvite extHash
        [("t", { email := "bob@x", groups := ["staff"], displayname := "Bob",
                 createdAt := 0, expiresAt := 10 })] [] 5 "t" "bob" "pw").2.2
        "bob" =
      some { displayname := "Bob", email := some "bob@x",
             password := some "$argon2id$v=19$pw", groups := ["staff"] } := by
  have := ((c6_accept_creates_from_invite extHash
      [("t", { email := "bob@x", groups := ["staff"], displayname := "Bob",
               createdAt := 0, expiresAt := 10 })] [] 5 "t" "bob" "pw"
      "$argon2id$v=19$pw"
      { email := "bob@x", groups := ["staff"], displayname := "Bob",
        createdAt := 0, expiresAt := 10 }
      (by decide) (by decide) (by decide) rfl (by decide) rfl).2 rfl).2.1
  simpa using this

/-- C9 counterexample: the handler reads `Date.now()` twice — once for
`createdAt` and once inside the `expiresAt` sum — so when the clock ticks
between the reads (first read 0, second read 1, default TTL 60 minutes)
the stored `expiresAt` is 3600001, which is not
`createdAt + 60 * 60 * 1000 = 3600000`: `expiresAt` does not always equal
the creation timestamp plus the TTL. -/
theorem c9_counterexample_clock_tick :
    (inviteCreate [] 0 1 "tok" "" "e@x" GroupsField.undef "" none
        MailOutcome.notConfigured).2 =
      [("tok", { email := "e@x", groups := ["users"], displayname := "",
                 createdAt := 0, expiresAt := 3600001 })] ∧
    (0 : Nat) + 60 * 60 * 1000 ≠ 3600001 := by
  constructor <;> decide

/-- C9 (amended): `invite` stores an invitation whose `expiresAt` is the
handler's second clock reading plus `expiresMinutes * 60 * 1000`
milliseconds (`expiresMinutes` defaulting to 60), which equals
`createdAt + expiresMinutes * 60 * 1000` whenever the two adjacent
`Date.now()` reads return the same millisecond, and answers
`ok/token/link` regardless of whether email delivery succeeds, fails, or
is not configured. -/
theorem c9_invite_stores_and_returns (invites : Invites) (now1 now2 : Nat)
    (token base email : String) (groups : GroupsField) (displayname : String)
    (expiresMinutes : Option Nat) (mail : MailOutcome) (he : email ≠ "") :
    (inviteCreate invites now1 now2 token base email groups displayname
        expiresMinutes mail).1 =
      InviteOutcome.ok token
        (base ++ "/admin/invite/accept.html?token=" ++ token) ∧
    assocFind (inviteCreate invites now1 now2 token base email groups
        displayname expiresMinutes mail).2 token =
      some { email := email
             groups := normGroupsCreate groups
             displayname := displayname
             createdAt := now1
             expiresAt := now2 + expiresMinutes.getD 60 * 60 * 1000 } ∧
    (∀ i, now1 = now2 →
      assocFind (inviteCreate invites now1 now2 token base email groups
          displayname expiresMinutes mail).2 token = some i →
      i.expiresAt = i.createdAt + expiresMinutes.getD 60 * 60 * 1000) ∧
    (expiresMinutes = none → expiresMinutes.getD 60 = 60) ∧
    (∀ mail2, inviteCreate invites now1 now2 token base email groups
        displayname expiresMinutes mail2 =
      inviteCreate invites now1 now2 token base email groups displayname
        expiresMinutes mail) := by
  have hfst : (inviteCreate invites now1 now2 token base email groups
      displayname expiresMinutes mail).2 =
      assocPut invites token
        { email := email
          groups := normGroupsCreate groups
          displayname := displayname
          createdAt := now1
          expiresAt := now2 + expiresMinutes.getD 60 * 60 * 1000 } := by
    simp [inviteCreate, he]
  refine ⟨by simp [inviteCreate, he], ?_, ?_, ?_, fun _ => rfl⟩
  · rw [hfst]
    exact assocFind_put_self invites token _
  · intro i hnow hi
    rw [hfst, assocFind_put_self invites token _] at hi
    cases hi
    simp [hnow]
  · intro hm
    simp [hm]

/-- C9 witness: with both clock reads at 1000 and the TTL left to default,
the stored invitation expires exactly 60 minutes after its creation
timestamp, and the token and link are returned. -/
theorem c9_witness_default_ttl :
    (inviteCreate [] 1000 1000 "tok" "https://x" "e@x" GroupsField.undef ""
        none MailOutcome.failed).1 =
      InviteOutcome.ok "tok" "https://x/admin/invite/accept.html?token=tok" ∧
    assocFind (inviteCreate [] 1000 1000 "tok" "https://x" "e@x"
        GroupsField.undef "" none MailOutcome.failed).2 "tok" =
      some { email := "e@x", groups := ["users"], displayname := "",
             createdAt := 1000, expiresAt := 1000 + 60 * 60 * 1000 } := by
  have h := c9_invite_stores_and_returns [] 1000 1000 "tok" "https://x" "e@x"
    GroupsField.undef "" none MailOutcome.failed (by decide)
  exact ⟨h.1, h.2.1⟩

end AutheliaUserAdmin
